import Mathlib

/-!
# api2html, package `engine`: renderers, sentinel errors and the config document

A shallow embedding of `engine/api2html.go`.

* A Go `error` is `nil` or a pointer to an error object; the pointer is kept as an
  address, so that `==` on errors is address comparison.
* An `io.Writer` is observed through the bytes written to it; a function that takes a
  writer returns the writer it leaves behind next to its Go result.
* `interface{}` values are a closed tree of the dynamic values a render context or a
  config document holds, with one constructor for the values `encoding/json` refuses.
-/

namespace engine

/-! ## Errors -/

/-- The object behind a non-nil `error`, as `fmt.Errorf` allocates it: the address of
the object and the text its `Error()` method returns. -/
structure errorString where
  addr : Nat
  s : String
deriving DecidableEq, Repr

/-- A Go `error` interface value: `none` is `nil`. -/
abbrev error := Option errorString

/-- Go `==` on two `error` values: both nil, or both pointers to the same object. -/
def error.same : error → error → Bool
  | none, none => true
  | some a, some b => a.addr == b.addr
  | _, _ => false

/-- The allocation state threaded through package initialisation: the next free address. -/
structure Heap where
  next : Nat
deriving DecidableEq, Repr

/-- The call `fmt.Errorf(msg)` with a verb-free format: allocates a fresh error object
carrying `msg` and returns the pointer to it. -/
def Errorf (h : Heap) (msg : String) : error × Heap :=
  (some { addr := h.next, s := msg }, { next := h.next + 1 })

/-! ## Dynamic values and writers -/

/-- A value of static type `interface{}`. `unsupported` stands for the dynamic values
`encoding/json` cannot encode (channels, functions, complex numbers, non-finite
floats); `num` covers the integers and the finite floats. -/
inductive GoValue where
  | nil
  | bool (b : Bool)
  | str (s : String)
  | num (q : ℚ)
  | slice (xs : List GoValue)
  | map (kvs : List (String × GoValue))
  | unsupported

/-- An `io.Writer`, observed through the bytes written to it so far. -/
structure Writer where
  written : List UInt8
deriving DecidableEq, Repr

/-- The method `Write` of the observed writer: appends the bytes. -/
def Writer.Write (w : Writer) (p : List UInt8) : Writer :=
  { written := w.written ++ p }

/-! ## Renderers -/

/-- RendererFunc is a function implementing the Renderer interface:
`func(io.Writer, interface{}) error`, with the writer it leaves behind made explicit. -/
abbrev RendererFunc := Writer → GoValue → Writer × error

/-- The method `Render` of `RendererFunc`: `return rf(w, v)`. -/
def RendererFunc.Render (rf : RendererFunc) (w : Writer) (v : GoValue) : Writer × error :=
  rf w v

/-- ErrorRenderer is a renderer that always returns the injected error. -/
structure ErrorRenderer where
  Error : error
deriving DecidableEq, Repr

/-- The method `Render` of `ErrorRenderer`: both arguments are ignored (`_`), the
injected error is returned. -/
def ErrorRenderer.Render (r : ErrorRenderer) (w : Writer) (_v : GoValue) : Writer × error :=
  (w, r.Error)

/-- The package-level `var ( ... )` block. -/
structure PackageVars where
  ErrNoResponseGeneratorDefined : error
  ErrNoBackendDefined : error
  ErrNoRendererDefined : error
  EmptyRenderer : ErrorRenderer
deriving DecidableEq, Repr

/-- Initialisation of the package-level variables, in declaration order, starting from
the allocation state `h`. -/
def initVars (h : Heap) : PackageVars :=
  let (e1, h1) := Errorf h "no response generator defined"
  let (e2, h2) := Errorf h1 "no backend defined"
  let (e3, _) := Errorf h2 "no rendered defined"
  { ErrNoResponseGeneratorDefined := e1
    ErrNoBackendDefined := e2
    ErrNoRendererDefined := e3
    EmptyRenderer := { Error := e3 } }

/-- The text of an error: its `Error()` method; `none` for the nil error. -/
def error.message (e : error) : Option String :=
  e.map (fun x => x.s)

/-! ## The config structs -/

/-- PublicFolder contains the info regarding the static contents to be served. -/
structure PublicFolder where
  Path : String
  Prefix : String
deriving DecidableEq, Repr

/-- Page defines the behaviour of the engine for a given URL pattern. A Go map is
`none` when nil and otherwise a key-unique association list. -/
structure Page where
  Name : String
  URLPattern : String
  BackendURLPattern : String
  Template : String
  Layout : String
  CacheTTL : String
  Header : String
  IsArray : Bool
  Extra : Option (List (String × GoValue))

/-- Config is a struct with all the required definitions for building an API2HTML
engine. Slices, maps and the pointer are `none` when nil. -/
structure Config where
  Pages : Option (List Page)
  StaticTXTContent : Option (List String)
  Robots : Bool
  Sitemap : Bool
  Templates : Option (List (String × String))
  Layouts : Option (List (String × String))
  Extra : Option (List (String × GoValue))
  PublicFolder : Option PublicFolder

/-! ## `encoding/json`: the document `json.Marshal` produces -/

/-- A JSON document, as a tree. -/
inductive Json where
  | null
  | bool (b : Bool)
  | num (q : ℚ)
  | str (s : String)
  | arr (xs : List Json)
  | obj (kvs : List (String × Json))

/-- The keys of a JSON object, in document order; `none` for any other document. -/
def Json.keys : Json → Option (List String)
  | .obj kvs => some (kvs.map Prod.fst)
  | _ => none

/-- Lookup of a key in a JSON object. -/
def Json.get (j : Json) (k : String) : Option Json :=
  match j with
  | .obj kvs => (kvs.find? (fun kv => kv.1 == k)).map Prod.snd
  | _ => none

/-- The elements of a JSON array; `none` for any other document. -/
def Json.elems : Json → Option (List Json)
  | .arr xs => some xs
  | _ => none

/-- The members of an object encoded from a Go map are written in sorted key order. -/
def sortMembers (kvs : List (String × Json)) : List (String × Json) :=
  kvs.insertionSort (fun a b => a.1 ≤ b.1)

mutual
/-- Encoding of an `interface{}` value; `none` is the error `json.Marshal` returns for
a value it does not support. -/
def marshalValue : GoValue → Option Json
  | .nil => some .null
  | .bool b => some (.bool b)
  | .str s => some (.str s)
  | .num q => some (.num q)
  | .slice xs => (marshalValues xs).map Json.arr
  | .map kvs => (marshalMembers kvs).map (fun ms => Json.obj (sortMembers ms))
  | .unsupported => none
/-- Encoding of the elements of a `[]interface{}`. -/
def marshalValues : List GoValue → Option (List Json)
  | [] => some []
  | x :: xs =>
    match marshalValue x, marshalValues xs with
    | some j, some js => some (j :: js)
    | _, _ => none
/-- Encoding of the entries of a `map[string]interface{}`. -/
def marshalMembers : List (String × GoValue) → Option (List (String × Json))
  | [] => some []
  | kv :: rest =>
    match marshalValue kv.2, marshalMembers rest with
    | some j, some ms => some ((kv.1, j) :: ms)
    | _, _ => none
end

/-- Encoding of a `map[string]interface{}` field: a nil map is `null`. -/
def marshalExtra : Option (List (String × GoValue)) → Option Json
  | none => some .null
  | some kvs => marshalValue (.map kvs)

/-- Encoding of a `map[string]string` field: a nil map is `null`. -/
def marshalStringMap : Option (List (String × String)) → Json
  | none => .null
  | some kvs => .obj (sortMembers (kvs.map (fun kv => (kv.1, Json.str kv.2))))

/-- Encoding of a `[]string` field: a nil slice is `null`. -/
def marshalStrings : Option (List String) → Json
  | none => .null
  | some xs => .arr (xs.map Json.str)

/-- One field of a struct type as `encoding/json` sees it through reflection: the Go
name, the value of the `json` key of its tag (empty when the field has no tag) and the
encoder of its value. -/
structure StructField (α : Type) where
  name : String
  tag : String
  encode : α → Option Json

/-- The name part of a `json` tag value: everything before the first comma. -/
def tagName (tag : String) : String :=
  String.mk (tag.data.takeWhile (fun c => c != ','))

/-- The check `isValidTag` of `encoding/json`: a non-empty name made of letters, digits
and the listed punctuation. Letters and digits are the ASCII ones, which is all the tags
of this package use. -/
def isValidTag (s : String) : Bool :=
  s.data != [] &&
    s.data.all (fun c => "!#$%&()*+-./:;<=>?@[]^_\x7b|\x7d~ ".data.contains c || c.isAlphanum)

/-- A field is exported when its name starts with an upper-case (ASCII) letter. -/
def isExported (name : String) : Bool :=
  match name.data with
  | [] => false
  | c :: _ => c.isUpper

/-- The object key `encoding/json` gives a field with Go name `name` and `json` tag
value `tag`: none for an unexported field and for the tag `-`; the tag name when it is
valid; the Go field name otherwise. -/
def jsonKey (name tag : String) : Option String :=
  if !isExported name then none
  else if tag == "-" then none
  else if isValidTag (tagName tag) then some (tagName tag)
  else some name

/-- The object key of a struct field. -/
def fieldKey {α : Type} (f : StructField α) : Option String :=
  jsonKey f.name f.tag

/-- The members of the object encoding a struct value, in field order. No tag of this
package carries an option (`omitempty`, `string`), so the option list is not
interpreted. -/
def marshalFields {α : Type} (x : α) : List (StructField α) → Option (List (String × Json))
  | [] => some []
  | f :: fs =>
    match fieldKey f with
    | none => marshalFields x fs
    | some k =>
      match f.encode x, marshalFields x fs with
      | some j, some ms => some ((k, j) :: ms)
      | _, _ => none

/-- Encoding of a struct value with the given fields. -/
def marshalStruct {α : Type} (fs : List (StructField α)) (x : α) : Option Json :=
  (marshalFields x fs).map Json.obj

/-- Encoding of the elements of a slice, in order; fails when one element fails. -/
def marshalElems {α : Type} (enc : α → Option Json) : List α → Option (List Json)
  | [] => some []
  | x :: xs =>
    match enc x, marshalElems enc xs with
    | some j, some js => some (j :: js)
    | _, _ => none

/-- Encoding of a slice with the given element encoder: a nil slice is `null`. -/
def marshalSlice {α : Type} (enc : α → Option Json) : Option (List α) → Option Json
  | none => some .null
  | some xs => (marshalElems enc xs).map Json.arr

/-- Encoding of a pointer with the given pointee encoder: a nil pointer is `null`. -/
def marshalPtr {α : Type} (enc : α → Option Json) : Option α → Option Json
  | none => some .null
  | some x => enc x

/-- The fields of `PublicFolder`, with their tags. -/
def PublicFolder.fields : List (StructField PublicFolder) :=
  [ { name := "Path", tag := "path_to_folder", encode := fun f => some (.str f.Path) },
    { name := "Prefix", tag := "url_prefix", encode := fun f => some (.str f.Prefix) } ]

/-- The fields of `Page`: none of them has a tag. -/
def Page.fields : List (StructField Page) :=
  [ { name := "Name", tag := "", encode := fun p => some (.str p.Name) },
    { name := "URLPattern", tag := "", encode := fun p => some (.str p.URLPattern) },
    { name := "BackendURLPattern", tag := "",
      encode := fun p => some (.str p.BackendURLPattern) },
    { name := "Template", tag := "", encode := fun p => some (.str p.Template) },
    { name := "Layout", tag := "", encode := fun p => some (.str p.Layout) },
    { name := "CacheTTL", tag := "", encode := fun p => some (.str p.CacheTTL) },
    { name := "Header", tag := "", encode := fun p => some (.str p.Header) },
    { name := "IsArray", tag := "", encode := fun p => some (.bool p.IsArray) },
    { name := "Extra", tag := "", encode := fun p => marshalExtra p.Extra } ]

/-- The document `json.Marshal` produces for a `Page`. -/
def Page.Marshal (p : Page) : Option Json :=
  marshalStruct Page.fields p

/-- The document `json.Marshal` produces for a `PublicFolder`. -/
def PublicFolder.Marshal (f : PublicFolder) : Option Json :=
  marshalStruct PublicFolder.fields f

/-- The fields of `Config`, with their tags. -/
def Config.fields : List (StructField Config) :=
  [ { name := "Pages", tag := "pages", encode := fun c => marshalSlice Page.Marshal c.Pages },
    { name := "StaticTXTContent", tag := "static_txt_content",
      encode := fun c => some (marshalStrings c.StaticTXTContent) },
    { name := "Robots", tag := "robots", encode := fun c => some (.bool c.Robots) },
    { name := "Sitemap", tag := "sitemap", encode := fun c => some (.bool c.Sitemap) },
    { name := "Templates", tag := "templates",
      encode := fun c => some (marshalStringMap c.Templates) },
    { name := "Layouts", tag := "layouts",
      encode := fun c => some (marshalStringMap c.Layouts) },
    { name := "Extra", tag := "extra", encode := fun c => marshalExtra c.Extra },
    { name := "PublicFolder", tag := "public_folder",
      encode := fun c => marshalPtr PublicFolder.Marshal c.PublicFolder } ]

/-- The config document: `json.Marshal(cfg)`, `none` when it returns an error. -/
def Config.Marshal (c : Config) : Option Json :=
  marshalStruct Config.fields c

mutual
/-- Whether `encoding/json` supports an `interface{}` value. -/
def GoValue.encodable : GoValue → Bool
  | .unsupported => false
  | .slice xs => GoValue.allEncodable xs
  | .map kvs => GoValue.membersEncodable kvs
  | _ => true
/-- Whether every element of a `[]interface{}` is supported. -/
def GoValue.allEncodable : List GoValue → Bool
  | [] => true
  | x :: xs => GoValue.encodable x && GoValue.allEncodable xs
/-- Whether every value of a `map[string]interface{}` is supported. -/
def GoValue.membersEncodable : List (String × GoValue) → Bool
  | [] => true
  | kv :: rest => GoValue.encodable kv.2 && GoValue.membersEncodable rest
end

/-- Whether a `map[string]interface{}` field holds supported values only. -/
def extraEncodable : Option (List (String × GoValue)) → Bool
  | none => true
  | some kvs => GoValue.membersEncodable kvs

/-- Whether every `interface{}` value reachable from a `Config` is supported. -/
def Config.encodable (c : Config) : Bool :=
  (match c.Pages with
    | none => true
    | some ps => ps.all (fun p => extraEncodable p.Extra)) && extraEncodable c.Extra

/-- The entries of the `pages` array of the config document of `c`. -/
def Config.pageEntries (c : Config) : Option (List Json) :=
  c.Marshal.bind (fun doc => (doc.get "pages").bind Json.elems)

/-- The page of the test configuration (`TestNew`). -/
def testPage : Page :=
  { Name := "", URLPattern := "/a", BackendURLPattern := "", Template := "a", Layout := "b",
    CacheTTL := "", Header := "", IsArray := false,
    Extra := some [("name", .str "stranger")] }

/-- The configuration `TestNew` serialises with `json.Marshal`. -/
def testConfig : Config :=
  { Pages := some [testPage]
    StaticTXTContent := some ["s.txt"]
    Robots := true
    Sitemap := true
    Templates := some [("a", "test_tmpl")]
    Layouts := some [("b", "test_lyt")]
    Extra := none
    PublicFolder := some { Path := "./public", Prefix := "/js" } }

/-! ## EngineFactory

`EngineFactory` is declared outside `api2html.go`; `engine_test.go` shows its use. -/

/-- Modelled from the spec: the Engine that `EngineFactory.New` returns is missing from
the source files. Spec 4.4: a TemplateStore with every `Templates`/`Layouts` entry
registered, one PageHandler per `Page`, the static, robots, sitemap and public-folder
routes when enabled, and the background reload loop switched by `liveReload`. -/
structure Engine where
  Renderers : List (String × RendererFunc)
  Handlers : List Page
  StaticRoutes : List String
  Robots : Bool
  Sitemap : Bool
  PublicFolder : Option PublicFolder
  Reload : Bool

/-- Modelled from the spec: the struct `EngineFactory` is missing from the source files.
Spec 4.4 and 6: the config parser is injected, `(configPath) -> (Config, error)`; spec
4.1: the Renderer of a registered source is built by the (external) template engine,
and that build can fail. -/
structure EngineFactory where
  Parser : String → Config × error
  Build : String → RendererFunc × error

/-- Modelled from the spec: `TemplateStore.Register` over a list of `name -> source`
entries is missing from the source files. Spec 4.1: each registration performs an
initial synchronous build of its Renderer and fails the whole construction if that
build fails. -/
def registerAll (build : String → RendererFunc × error) :
    List (String × String) → List (String × RendererFunc) × error
  | [] => ([], none)
  | (name, source) :: rest =>
    match build source with
    | (_, some e) => ([], some e)
    | (r, none) =>
      match registerAll build rest with
      | (_, some e) => ([], some e)
      | (rs, none) => ((name, r) :: rs, none)

/-- What a call of `EngineFactory.New` does and returns: the arguments it passed to the
injected Parser, in call order, and the Go result pair `(engine, err)`. -/
structure NewResult where
  parserCalls : List String
  engine : Option Engine
  err : error

/-- The entries of a Go map field or the elements of a slice field, none when nil. -/
def entries {α : Type} : Option (List α) → List α
  | none => []
  | some xs => xs

/-- Modelled from the spec: `EngineFactory.New` is missing from the source files (only
its tests are present). Spec 4.4: `New(configSource, liveReload) -> (Engine, error)`
parses Config via the injected parser, builds a TemplateStore registering every
`Templates`/`Layouts` entry, builds one PageHandler per `Page`, and registers the
static, robots, sitemap and public-folder routes if enabled; failure of config parsing
or of any template's initial build is fatal to construction (returns error, no partial
Engine). `TestEngineFactory_New_koConfigParser`: the error returned is the Parser's. -/
def EngineFactory.New (ef : EngineFactory) (path : String) (liveReload : Bool) : NewResult :=
  match ef.Parser path with
  | (_, some e) => { parserCalls := [path], engine := none, err := some e }
  | (cfg, none) =>
    match registerAll ef.Build (entries cfg.Templates ++ entries cfg.Layouts) with
    | (_, some e) => { parserCalls := [path], engine := none, err := some e }
    | (rs, none) =>
      { parserCalls := [path]
        engine := some
          { Renderers := rs
            Handlers := entries cfg.Pages
            StaticRoutes := entries cfg.StaticTXTContent
            Robots := cfg.Robots
            Sitemap := cfg.Sitemap
            PublicFolder := cfg.PublicFolder
            Reload := liveReload }
        err := none }

/-- The zero value `Config{}`. -/
def Config.zero : Config :=
  { Pages := none, StaticTXTContent := none, Robots := false, Sitemap := false,
    Templates := none, Layouts := none, Extra := none, PublicFolder := none }

/-- The factory of `TestEngineFactory_New_koConfigParser`: its Parser returns
`Config{}, expectedErr` for every path; no renderer is ever built. -/
def koConfigParser (expectedErr : error) : EngineFactory :=
  { Parser := fun _ => (Config.zero, expectedErr)
    Build := fun _ => (fun w _ => (w, none), none) }

/-! ## Lemmas on the encoder -/

mutual
theorem marshalValue_isSome : ∀ v : GoValue, (marshalValue v).isSome = v.encodable
  | .nil => rfl
  | .bool _ => rfl
  | .str _ => rfl
  | .num _ => rfl
  | .unsupported => rfl
  | .slice xs => by
    simp only [marshalValue, GoValue.encodable, Option.isSome_map']
    exact marshalValues_isSome xs
  | .map kvs => by
    simp only [marshalValue, GoValue.encodable, Option.isSome_map']
    exact marshalMembers_isSome kvs
theorem marshalValues_isSome : ∀ xs : List GoValue,
    (marshalValues xs).isSome = GoValue.allEncodable xs
  | [] => rfl
  | x :: xs => by
    have h1 := marshalValue_isSome x
    have h2 := marshalValues_isSome xs
    simp only [marshalValues, GoValue.allEncodable, ← h1, ← h2]
    cases marshalValue x <;> cases marshalValues xs <;> rfl
theorem marshalMembers_isSome : ∀ kvs : List (String × GoValue),
    (marshalMembers kvs).isSome = GoValue.membersEncodable kvs
  | [] => rfl
  | kv :: rest => by
    have h1 := marshalValue_isSome kv.2
    have h2 := marshalMembers_isSome rest
    simp only [marshalMembers, GoValue.membersEncodable, ← h1, ← h2]
    cases marshalValue kv.2 <;> cases marshalMembers rest <;> rfl
end

theorem marshalExtra_isSome (m : Option (List (String × GoValue))) :
    (marshalExtra m).isSome = extraEncodable m := by
  cases m with
  | none => rfl
  | some kvs =>
    simp only [marshalExtra, extraEncodable, marshalValue_isSome, GoValue.encodable]

/-- The nine keys of a page entry: the Go field names. -/
theorem Page.Marshal_of_extra (p : Page) (e : Json) (h : marshalExtra p.Extra = some e) :
    p.Marshal = some (.obj [("Name", .str p.Name), ("URLPattern", .str p.URLPattern),
      ("BackendURLPattern", .str p.BackendURLPattern), ("Template", .str p.Template),
      ("Layout", .str p.Layout), ("CacheTTL", .str p.CacheTTL), ("Header", .str p.Header),
      ("IsArray", .bool p.IsArray), ("Extra", e)]) := by
  simp only [Page.Marshal, marshalStruct, Page.fields, marshalFields, fieldKey, h]
  rfl

theorem Page.encodes_iff_extra (p : Page) : p.Marshal.isSome = extraEncodable p.Extra := by
  rw [← marshalExtra_isSome]
  cases h : marshalExtra p.Extra with
  | some e => rw [Page.Marshal_of_extra p e h]; rfl
  | none =>
    simp only [Page.Marshal, marshalStruct, Page.fields, marshalFields, fieldKey, h]
    rfl

theorem Page.Marshal_keys (p : Page) (j : Json) (h : p.Marshal = some j) :
    j.keys = some ["Name", "URLPattern", "BackendURLPattern", "Template", "Layout",
      "CacheTTL", "Header", "IsArray", "Extra"] := by
  cases he : marshalExtra p.Extra with
  | some e =>
    rw [Page.Marshal_of_extra p e he] at h
    cases h
    rfl
  | none =>
    have := Page.encodes_iff_extra p
    rw [← marshalExtra_isSome, he, h] at this
    cases this

theorem marshalElems_isSome {α : Type} (enc : α → Option Json) (xs : List α) :
    (marshalElems enc xs).isSome = xs.all (fun x => (enc x).isSome) := by
  induction xs with
  | nil => rfl
  | cons x xs ih =>
    simp only [marshalElems, List.all_cons, ← ih]
    cases enc x <;> cases marshalElems enc xs <;> rfl

theorem marshalElems_forall₂ {α : Type} (enc : α → Option Json) (xs : List α) (js : List Json)
    (h : marshalElems enc xs = some js) : List.Forall₂ (fun x j => enc x = some j) xs js := by
  induction xs generalizing js with
  | nil => simp only [marshalElems] at h; cases h; exact List.Forall₂.nil
  | cons x xs ih =>
    simp only [marshalElems] at h
    cases hx : enc x with
    | none => rw [hx] at h; cases h
    | some j =>
      cases hxs : marshalElems enc xs with
      | none => rw [hx, hxs] at h; cases h
      | some js1 =>
        rw [hx, hxs] at h
        cases h
        exact List.Forall₂.cons hx (ih js1 hxs)

theorem PublicFolder.Marshal_eq (f : PublicFolder) :
    f.Marshal = some (.obj [("path_to_folder", .str f.Path), ("url_prefix", .str f.Prefix)]) :=
  rfl

theorem Config.Marshal_of_parts (c : Config) (a b d : Json)
    (h1 : marshalSlice Page.Marshal c.Pages = some a) (h2 : marshalExtra c.Extra = some b)
    (h3 : marshalPtr PublicFolder.Marshal c.PublicFolder = some d) :
    c.Marshal = some (.obj [("pages", a),
      ("static_txt_content", marshalStrings c.StaticTXTContent), ("robots", .bool c.Robots),
      ("sitemap", .bool c.Sitemap), ("templates", marshalStringMap c.Templates),
      ("layouts", marshalStringMap c.Layouts), ("extra", b), ("public_folder", d)]) := by
  simp only [Config.Marshal, marshalStruct, Config.fields, marshalFields, fieldKey, h1, h2, h3]
  rfl

theorem marshalPtr_publicFolder (o : Option PublicFolder) :
    ∃ d, marshalPtr PublicFolder.Marshal o = some d := by
  cases o with
  | none => exact ⟨_, rfl⟩
  | some f => exact ⟨_, rfl⟩

theorem marshalPages_isSome (ps : Option (List Page)) :
    (marshalSlice Page.Marshal ps).isSome =
      (match ps with
        | none => true
        | some ps => ps.all (fun p => extraEncodable p.Extra)) := by
  cases ps with
  | none => rfl
  | some ps =>
    simp only [marshalSlice, Option.isSome_map', marshalElems_isSome, Page.encodes_iff_extra]

theorem Config.Marshal_isSome_eq (c : Config) : c.Marshal.isSome = c.encodable := by
  obtain ⟨d, h3⟩ := marshalPtr_publicFolder c.PublicFolder
  have hp := marshalPages_isSome c.Pages
  have he := marshalExtra_isSome c.Extra
  unfold Config.encodable
  rw [← hp, ← he]
  cases h1 : marshalSlice Page.Marshal c.Pages with
  | none =>
    simp only [Config.Marshal, marshalStruct, Config.fields, marshalFields, fieldKey, h1]
    rfl
  | some a =>
    cases h2 : marshalExtra c.Extra with
    | none =>
      simp only [Config.Marshal, marshalStruct, Config.fields, marshalFields, fieldKey, h1, h2,
        h3]
      rfl
    | some b => rw [Config.Marshal_of_parts c a b d h1 h2 h3]; rfl

theorem Config.Marshal_parts (c : Config) (doc : Json) (h : c.Marshal = some doc) :
    ∃ a b d, marshalSlice Page.Marshal c.Pages = some a ∧ marshalExtra c.Extra = some b ∧
      marshalPtr PublicFolder.Marshal c.PublicFolder = some d ∧
      doc = .obj [("pages", a),
        ("static_txt_content", marshalStrings c.StaticTXTContent), ("robots", .bool c.Robots),
        ("sitemap", .bool c.Sitemap), ("templates", marshalStringMap c.Templates),
        ("layouts", marshalStringMap c.Layouts), ("extra", b), ("public_folder", d)] := by
  obtain ⟨d, h3⟩ := marshalPtr_publicFolder c.PublicFolder
  have hs := Config.Marshal_isSome_eq c
  have hp := marshalPages_isSome c.Pages
  have he := marshalExtra_isSome c.Extra
  rw [h] at hs
  unfold Config.encodable at hs
  rw [← hp, ← he] at hs
  cases h1 : marshalSlice Page.Marshal c.Pages with
  | none => rw [h1] at hs; cases hs
  | some a =>
    cases h2 : marshalExtra c.Extra with
    | none => rw [h1, h2] at hs; cases hs
    | some b =>
      rw [Config.Marshal_of_parts c a b d h1 h2 h3] at h
      cases h
      exact ⟨a, b, d, rfl, rfl, h3, rfl⟩

/-! ## ErrorRenderer and RendererFunc -/

/-- C1: `ErrorRenderer.Render` returns exactly the error injected when the renderer was
built, whatever the writer and the value are. -/
theorem ErrorRenderer.Render_returns_injected (e : error) (w w' : Writer) (v v' : GoValue) :
    (ErrorRenderer.Render { Error := e } w v).2 = e ∧
    (ErrorRenderer.Render { Error := e } w v).2 = (ErrorRenderer.Render { Error := e } w' v').2 :=
  ⟨rfl, rfl⟩

/-- C2, as stated, fails: an `ErrorRenderer` built with the nil error (the zero value
`ErrorRenderer{}`) renders with a nil error, that is, it succeeds. -/
theorem ErrorRenderer.Render_nil_succeeds :
    (ErrorRenderer.Render { Error := none } { written := [] } GoValue.nil).2 = none :=
  rfl

/-- C2, amended: an `ErrorRenderer` built with a non-nil error always fails, with that
error, for every writer and every value. -/
theorem ErrorRenderer.Render_fails (r : ErrorRenderer) (w : Writer) (v : GoValue)
    (h : r.Error ≠ none) :
    (r.Render w v).2 ≠ none ∧ (r.Render w v).2 = r.Error :=
  ⟨h, rfl⟩

theorem ErrorRenderer.Render_fails_witness :
    (ErrorRenderer.mk (some { addr := 7, s := "boooom" })).Error ≠ none ∧
    ((ErrorRenderer.mk (some { addr := 7, s := "boooom" })).Render
        { written := [104, 105] } (GoValue.str "x")).2 ≠ none :=
  ⟨by decide,
    (ErrorRenderer.Render_fails (ErrorRenderer.mk (some { addr := 7, s := "boooom" }))
      { written := [104, 105] } (GoValue.str "x") (by decide)).1⟩

/-- C3: `EmptyRenderer` is the `ErrorRenderer` bound to `ErrNoRendererDefined`, and its
`Render` fails with exactly that (non-nil) error for every writer and every value. -/
theorem EmptyRenderer_fails_with_ErrNoRendererDefined (h : Heap) (w : Writer) (v : GoValue) :
    (initVars h).EmptyRenderer = { Error := (initVars h).ErrNoRendererDefined } ∧
    ((initVars h).EmptyRenderer.Render w v).2 = (initVars h).ErrNoRendererDefined ∧
    (initVars h).ErrNoRendererDefined ≠ none ∧
    (initVars h).ErrNoRendererDefined.message = some "no rendered defined" :=
  ⟨rfl, rfl, by simp [initVars, Errorf], rfl⟩

/-- C8: `RendererFunc.Render` is pure delegation: the error it returns and the writer it
leaves behind are those of the wrapped function called on the same writer and value. -/
theorem RendererFunc.Render_delegates (f : RendererFunc) (w : Writer) (v : GoValue) :
    (RendererFunc.Render f w v).2 = (f w v).2 ∧ (RendererFunc.Render f w v).1 = (f w v).1 :=
  ⟨rfl, rfl⟩

/-- C9: `ErrorRenderer.Render` has no effect on its writer: the bytes written are the same
after the call as before. -/
theorem ErrorRenderer.Render_writer_unchanged (r : ErrorRenderer) (w : Writer) (v : GoValue) :
    (r.Render w v).1 = w ∧ (r.Render w v).1.written = w.written :=
  ⟨rfl, rfl⟩

/-- C10: the three sentinel errors are non-nil, pairwise distinct under Go `==`, carry the
three pairwise distinct messages, and no error equals two of them. -/
theorem sentinels_pairwise_distinct (h : Heap) :
    error.same (initVars h).ErrNoResponseGeneratorDefined (initVars h).ErrNoBackendDefined = false ∧
    error.same (initVars h).ErrNoResponseGeneratorDefined (initVars h).ErrNoRendererDefined = false ∧
    error.same (initVars h).ErrNoBackendDefined (initVars h).ErrNoRendererDefined = false ∧
    (initVars h).ErrNoResponseGeneratorDefined ≠ (initVars h).ErrNoBackendDefined ∧
    (initVars h).ErrNoResponseGeneratorDefined ≠ (initVars h).ErrNoRendererDefined ∧
    (initVars h).ErrNoBackendDefined ≠ (initVars h).ErrNoRendererDefined ∧
    (initVars h).ErrNoResponseGeneratorDefined.message = some "no response generator defined" ∧
    (initVars h).ErrNoBackendDefined.message = some "no backend defined" ∧
    (initVars h).ErrNoRendererDefined.message = some "no rendered defined" ∧
    (initVars h).ErrNoResponseGeneratorDefined.message ≠ (initVars h).ErrNoBackendDefined.message ∧
    (initVars h).ErrNoResponseGeneratorDefined.message ≠ (initVars h).ErrNoRendererDefined.message ∧
    (initVars h).ErrNoBackendDefined.message ≠ (initVars h).ErrNoRendererDefined.message ∧
    ∀ e : error,
      (error.same e (initVars h).ErrNoResponseGeneratorDefined = true →
        error.same e (initVars h).ErrNoBackendDefined = false ∧
        error.same e (initVars h).ErrNoRendererDefined = false) ∧
      (error.same e (initVars h).ErrNoBackendDefined = true →
        error.same e (initVars h).ErrNoResponseGeneratorDefined = false ∧
        error.same e (initVars h).ErrNoRendererDefined = false) ∧
      (error.same e (initVars h).ErrNoRendererDefined = true →
        error.same e (initVars h).ErrNoResponseGeneratorDefined = false ∧
        error.same e (initVars h).ErrNoBackendDefined = false) := by
  refine ⟨?_, ?_, ?_, ?_, ?_, ?_, rfl, rfl, rfl, ?_, ?_, ?_, ?_⟩
  · simp [initVars, Errorf, error.same]
  · simp [initVars, Errorf, error.same]; omega
  · simp [initVars, Errorf, error.same]
  · simp [initVars, Errorf]
  · simp [initVars, Errorf]
  · simp [initVars, Errorf]
  · simp only [initVars, Errorf, error.message, Option.map_some']; decide
  · simp only [initVars, Errorf, error.message, Option.map_some']; decide
  · simp only [initVars, Errorf, error.message, Option.map_some']; decide
  · intro e
    cases e with
    | none => simp [initVars, Errorf, error.same]
    | some x =>
      simp only [initVars, Errorf, error.same, beq_iff_eq, beq_eq_false_iff_ne, ne_eq]
      refine ⟨?_, ?_, ?_⟩ <;> intro hx <;> constructor <;> omega

/-! ## The config document -/

/-- C4, as stated, fails: the entry of the test page in the test configuration's document
has the nine Go field names as keys, and none of the nine snake-case keys occurs in it. -/
theorem page_entry_keys_are_not_snake_case :
    testConfig.pageEntries.map (List.map Json.keys) =
      some [some ["Name", "URLPattern", "BackendURLPattern", "Template", "Layout",
        "CacheTTL", "Header", "IsArray", "Extra"]] ∧
    ∀ k ∈ ["name", "url_pattern", "backend_url_pattern", "template", "layout", "cache_ttl",
        "header", "is_array", "extra"],
      k ∉ ["Name", "URLPattern", "BackendURLPattern", "Template", "Layout",
        "CacheTTL", "Header", "IsArray", "Extra"] := by
  constructor
  · decide
  · decide

/-- C4, amended: for every Config whose `interface{}` values `encoding/json` supports, the
`pages` array of the config document has one entry per Page, in order, and the entry of
each Page is its own serialisation, an object with exactly the keys `Name`, `URLPattern`,
`BackendURLPattern`, `Template`, `Layout`, `CacheTTL`, `Header`, `IsArray` and `Extra`. -/
theorem page_entry_keys (c : Config) (ps : List Page) (hp : c.Pages = some ps)
    (h : c.encodable = true) :
    ∃ es, c.pageEntries = some es ∧
      List.Forall₂ (fun p e => p.Marshal = some e ∧
        e.keys = some ["Name", "URLPattern", "BackendURLPattern", "Template", "Layout",
          "CacheTTL", "Header", "IsArray", "Extra"]) ps es := by
  have hs := Config.Marshal_isSome_eq c
  rw [h] at hs
  obtain ⟨doc, hdoc⟩ := Option.isSome_iff_exists.mp hs
  obtain ⟨a, b, d, h1, _, _, rfl⟩ := Config.Marshal_parts c doc hdoc
  rw [hp] at h1
  simp only [marshalSlice] at h1
  cases hes : marshalElems Page.Marshal ps with
  | none => rw [hes] at h1; cases h1
  | some es =>
    rw [hes] at h1
    cases h1
    refine ⟨es, ?_, ?_⟩
    · simp only [Config.pageEntries, hdoc]
      rfl
    · exact (marshalElems_forall₂ Page.Marshal ps es hes).imp
        (fun {p} {e} hpe => ⟨hpe, Page.Marshal_keys p e hpe⟩)

theorem page_entry_keys_witness :
    testConfig.Pages = some [testPage] ∧ testConfig.encodable = true ∧
    ∃ es, testConfig.pageEntries = some es ∧
      List.Forall₂ (fun p e => p.Marshal = some e ∧
        e.keys = some ["Name", "URLPattern", "BackendURLPattern", "Template", "Layout",
          "CacheTTL", "Header", "IsArray", "Extra"]) [testPage] es :=
  ⟨rfl, by decide, page_entry_keys testConfig [testPage] rfl (by decide)⟩

/-- C5: a Config has a config document exactly when `encoding/json` supports its
`interface{}` values, and that document is an object with exactly the top-level keys
`pages`, `static_txt_content`, `robots`, `sitemap`, `templates`, `layouts`, `extra` and
`public_folder`, where `public_folder` is `null` when no PublicFolder is set and otherwise
an object with exactly the keys `path_to_folder` and `url_prefix`. -/
theorem config_document_keys (c : Config) :
    c.Marshal.isSome = c.encodable ∧
    ∀ doc, c.Marshal = some doc →
      doc.keys = some ["pages", "static_txt_content", "robots", "sitemap", "templates",
        "layouts", "extra", "public_folder"] ∧
      (c.PublicFolder = none → doc.get "public_folder" = some Json.null) ∧
      (∀ f, c.PublicFolder = some f →
        ∃ o, doc.get "public_folder" = some o ∧
          o.keys = some ["path_to_folder", "url_prefix"]) := by
  refine ⟨Config.Marshal_isSome_eq c, ?_⟩
  intro doc hdoc
  obtain ⟨a, b, d, _, _, h3, rfl⟩ := Config.Marshal_parts c doc hdoc
  refine ⟨rfl, ?_, ?_⟩
  · intro hn
    rw [hn] at h3
    cases h3
    rfl
  · intro f hf
    rw [hf] at h3
    cases h3
    exact ⟨_, rfl, rfl⟩

theorem config_document_keys_witness :
    testConfig.Marshal.isSome = true ∧
    testConfig.Marshal.bind Json.keys = some ["pages", "static_txt_content", "robots",
      "sitemap", "templates", "layouts", "extra", "public_folder"] := by
  have h := config_document_keys testConfig
  refine ⟨by decide, ?_⟩
  obtain ⟨doc, hdoc⟩ := Option.isSome_iff_exists.mp (h.1.trans (by decide))
  rw [hdoc]
  exact (h.2 doc hdoc).1

/-! ## EngineFactory -/

/-- C6: when the injected Parser fails with `e` on the path `p`, `EngineFactory.New` has
called the Parser once, with exactly `p`, and returns no Engine and exactly the error
`e`, for either value of `liveReload`. -/
theorem EngineFactory.New_parser_error (ef : EngineFactory) (p : String) (liveReload : Bool)
    (e : errorString) (h : (ef.Parser p).2 = some e) :
    (ef.New p liveReload).parserCalls = [p] ∧
    (ef.New p liveReload).err = some e ∧
    (ef.New p liveReload).engine.isNone = true := by
  unfold EngineFactory.New
  rcases hp : ef.Parser p with ⟨cfg, err⟩
  rw [hp] at h
  simp only at h
  subst h
  exact ⟨rfl, rfl, rfl⟩

theorem EngineFactory.New_parser_error_witness :
    ((koConfigParser (Errorf { next := 0 } "boooom").1).New "something" true).parserCalls =
      ["something"] ∧
    ((koConfigParser (Errorf { next := 0 } "boooom").1).New "something" true).err =
      some { addr := 0, s := "boooom" } ∧
    ((koConfigParser (Errorf { next := 0 } "boooom").1).New "something" true).engine.isNone =
      true :=
  EngineFactory.New_parser_error (koConfigParser (Errorf { next := 0 } "boooom").1)
    "something" true { addr := 0, s := "boooom" } rfl

end engine
